import Mathlib

set_option autoImplicit false

namespace Skyperious

/-!
Shallow embedding of the comparison-and-merge core of `src/skyperious.py`
(`MergerPage`): the chat comparison list built by `load_data`, the
contact/contact-group diffing and conversation classification of
`load_later_data`, the side-swapping of `on_swap`, the per-chat merge of
`on_merge_chat`, the contact merge bookkeeping of `on_merge_contacts`,
the id-chunked message retrieval of `on_change_list_chats`, and the
progress-percent computation of `on_scan_all_result` /
`on_merge_all_result`.

Rows coming from the database layer are Python dictionaries in the
source; they are embedded as structures carrying exactly the fields the
merger logic reads and writes.
-/

/-- A conversation row (`get_conversations` output): local row id, stable
cross-database identity, and the statistics fields that
`get_conversations_stats` fills in. -/
structure Chat where
  id : Nat
  identity : String
  title : String
  message_count : Option Nat
  last_message_datetime : Option Int
  deriving Repr, DecidableEq

/-- A contact row. `hasId` embeds whether the `"id"` key is present in the
row dictionary (checked by `on_merge_chat` via `"id" in i["contact"]`). -/
structure Contact where
  hasId : Bool
  id : Nat
  identity : String
  name : String
  deriving Repr, DecidableEq

/-- A contact-group row: group name and the stored member list, a single
space-separated string as kept in the database column. -/
structure Group where
  name : String
  members : String
  deriving Repr, DecidableEq

/-- A conversation participant row: its contact identity plus the linked
contact row (read by `on_merge_chat` lines 4760-4763). -/
structure Participant where
  identity : String
  contact : Contact
  deriving Repr, DecidableEq

/-- Python `dict((key(c), c) for c in l).get(k)`: the LAST element of `l`
whose key equals `k` (later entries of a dict comprehension overwrite
earlier ones), or `none`. -/
def dictGet {α : Type} (key : α → String) : List α → String → Option α
  | [], _ => none
  | c :: rest, k =>
    match dictGet key rest k with
    | some x => some x
    | none => if key c = k then some c else none

theorem dictGet_eq_none_iff {α : Type} (key : α → String) (l : List α) (k : String) :
    dictGet key l k = none ↔ ∀ c ∈ l, key c ≠ k := by
  induction l with
  | nil => simp [dictGet]
  | cons c rest ih =>
    simp only [dictGet, List.mem_cons]
    cases h : dictGet key rest k with
    | some x =>
      constructor
      · intro hx; exact absurd hx (by simp)
      · intro hall
        have hn : dictGet key rest k = none := by
          rw [ih]; intro d hd; exact hall d (Or.inr hd)
        rw [hn] at h; exact absurd h (by simp)
    | none =>
      have hrest : ∀ d ∈ rest, key d ≠ k := ih.mp h
      by_cases hc : key c = k
      · simp only [hc, if_true]
        constructor
        · intro hx; exact absurd hx (by simp)
        · intro hall; exact absurd hc (hall c (Or.inl rfl))
      · simp only [hc, if_false]
        constructor
        · intro _
          rintro d (rfl | hd)
          · exact hc
          · exact hrest d hd
        · intro _; trivial

theorem dictGet_mem {α : Type} (key : α → String) (l : List α) (k : String) (c : α)
    (h : dictGet key l k = some c) : c ∈ l ∧ key c = k := by
  induction l with
  | nil => simp [dictGet] at h
  | cons d rest ih =>
    simp only [dictGet] at h
    cases hr : dictGet key rest k with
    | some x =>
      rw [hr] at h
      obtain rfl : x = c := by injection h
      have := ih hr
      exact ⟨List.mem_cons_of_mem _ this.1, this.2⟩
    | none =>
      rw [hr] at h
      by_cases hc : key d = k
      · simp only [hc, if_true] at h
        obtain rfl : d = c := by injection h
        exact ⟨List.mem_cons_self _ _, hc⟩
      · simp [hc] at h

theorem dictGet_of_nodup {α : Type} (key : α → String) (l : List α) (c : α)
    (hnd : (l.map key).Nodup) (hc : c ∈ l) : dictGet key l (key c) = some c := by
  induction l with
  | nil => simp at hc
  | cons d rest ih =>
    simp only [List.map_cons, List.nodup_cons] at hnd
    rcases List.mem_cons.mp hc with rfl | hmem
    · have hnone : dictGet key rest (key c) = none := by
        rw [dictGet_eq_none_iff]
        intro x hx hkey
        exact hnd.1 (hkey ▸ List.mem_map_of_mem key hx)
      simp [dictGet, hnone]
    · have := ih hnd.2 hmem
      simp [dictGet, this]

/-- MergerPage.DIFFSTATUS_IDENTICAL. -/
def DIFFSTATUS_IDENTICAL : String := "In sync"

/-- MergerPage.DIFFSTATUS_DIFFERENT. -/
def DIFFSTATUS_DIFFERENT : String := "Out of sync"

/-- An element of `self.compared`: a chat row dictionary augmented by
`load_data` with the per-side records and the per-side statistics keys. -/
structure ComparedEntry where
  id : Nat
  identity : String
  c1 : Option Chat
  c2 : Option Chat
  messages1 : Option Nat
  messages2 : Option Nat
  last_message_datetime1 : Option Int
  last_message_datetime2 : Option Int
  diff_status : Option String
  deriving Repr, DecidableEq

/-- Lines 4851-4853 of `load_data`, one side-1 chat: its entry holds its
own record as `c1` and the identity-matched side-2 record (or `None`)
as `c2`; statistics keys are initialised to `None` (lines 4858-4862). -/
def entryOfLeft (chats2 : List Chat) (c1 : Chat) : ComparedEntry :=
  { id := c1.id, identity := c1.identity,
    c1 := some c1, c2 := dictGet Chat.identity chats2 c1.identity,
    messages1 := none, messages2 := none,
    last_message_datetime1 := none, last_message_datetime2 := none,
    diff_status := none }

/-- Lines 4854-4857 of `load_data`, a side-2 chat whose identity is absent
from side 1's map: its entry has `c1 = None` and itself as `c2`. -/
def entryOfRightOnly (c2 : Chat) : ComparedEntry :=
  { id := c2.id, identity := c2.identity,
    c1 := none, c2 := some c2,
    messages1 := none, messages2 := none,
    last_message_datetime1 := none, last_message_datetime2 := none,
    diff_status := none }

/-- MergerPage.load_data lines 4846-4862: build the chat comparison list.
Every chat of side 1 yields one entry; a side-2 chat whose identity is
absent from side 1's map yields one extra entry. -/
def compareChats (chats1 chats2 : List Chat) : List ComparedEntry :=
  chats1.map (entryOfLeft chats2) ++
    ((chats2.filter fun c2 => (dictGet Chat.identity chats1 c2.identity).isNone).map
      entryOfRightOnly)

@[simp] theorem entryOfLeft_identity (chats2 : List Chat) (c1 : Chat) :
    (entryOfLeft chats2 c1).identity = c1.identity := rfl

@[simp] theorem entryOfLeft_c1 (chats2 : List Chat) (c1 : Chat) :
    (entryOfLeft chats2 c1).c1 = some c1 := rfl

@[simp] theorem entryOfLeft_c2 (chats2 : List Chat) (c1 : Chat) :
    (entryOfLeft chats2 c1).c2 = dictGet Chat.identity chats2 c1.identity := rfl

@[simp] theorem entryOfRightOnly_identity (c2 : Chat) :
    (entryOfRightOnly c2).identity = c2.identity := rfl

@[simp] theorem entryOfRightOnly_c1 (c2 : Chat) :
    (entryOfRightOnly c2).c1 = none := rfl

@[simp] theorem entryOfRightOnly_c2 (c2 : Chat) :
    (entryOfRightOnly c2).c2 = some c2 := rfl

/-- Side-1 half of the statistics loop of `load_later_data` (lines
4890-4896): when the entry's `c1` record is present (truthy) and the
identity is in side 1's map (`m = some a`), copy that map record's
statistics into `messages1` / `last_message_datetime1`. -/
def fill1 (m : Option Chat) (e : ComparedEntry) : ComparedEntry :=
  match e.c1, m with
  | some _, some a =>
    { e with messages1 := a.message_count,
             last_message_datetime1 := a.last_message_datetime }
  | _, _ => e

/-- Side-2 half of the statistics loop of `load_later_data`. -/
def fill2 (m : Option Chat) (e : ComparedEntry) : ComparedEntry :=
  match e.c2, m with
  | some _, some b =>
    { e with messages2 := b.message_count,
             last_message_datetime2 := b.last_message_datetime }
  | _, _ => e

/-- The `identical` flag of `load_later_data` lines 4898-4903: both side
records are truthy and the two message counts and the two last-message
datetimes compare equal (Python `==` on possibly-`None` values). -/
def identicalFlag (e : ComparedEntry) : Bool :=
  e.c1.isSome && e.c2.isSome
    && decide (e.messages1 = e.messages2)
    && decide (e.last_message_datetime1 = e.last_message_datetime2)

/-- Lines 4897-4905: `diff_status` becomes IDENTICAL exactly when the
`identical` flag holds, else DIFFERENT. -/
def classify (e : ComparedEntry) : ComparedEntry :=
  { e with diff_status := some (if identicalFlag e then DIFFSTATUS_IDENTICAL else DIFFSTATUS_DIFFERENT) }

/-- MergerPage.load_later_data lines 4889-4905, for one compared entry:
fill in the per-side statistics from the per-identity maps, then
classify. -/
def updateStats (chats1 chats2 : List Chat) (e0 : ComparedEntry) : ComparedEntry :=
  classify (fill2 (dictGet Chat.identity chats2 e0.identity)
    (fill1 (dictGet Chat.identity chats1 e0.identity) e0))

/-- The comparison list as it stands after `load_data` has built it and
`load_later_data` has filled in statistics and classification. -/
def loadCompared (chats1 chats2 : List Chat) : List ComparedEntry :=
  (compareChats chats1 chats2).map (updateStats chats1 chats2)

@[simp] theorem fill1_identity (m : Option Chat) (e : ComparedEntry) :
    (fill1 m e).identity = e.identity := by
  cases hc : e.c1 <;> cases m <;> simp [fill1, hc]

@[simp] theorem fill1_c1 (m : Option Chat) (e : ComparedEntry) :
    (fill1 m e).c1 = e.c1 := by
  cases hc : e.c1 <;> cases m <;> simp [fill1, hc]

@[simp] theorem fill1_c2 (m : Option Chat) (e : ComparedEntry) :
    (fill1 m e).c2 = e.c2 := by
  cases hc : e.c1 <;> cases m <;> simp [fill1, hc]

@[simp] theorem fill1_messages2 (m : Option Chat) (e : ComparedEntry) :
    (fill1 m e).messages2 = e.messages2 := by
  cases hc : e.c1 <;> cases m <;> simp [fill1, hc]

@[simp] theorem fill1_lmd2 (m : Option Chat) (e : ComparedEntry) :
    (fill1 m e).last_message_datetime2 = e.last_message_datetime2 := by
  cases hc : e.c1 <;> cases m <;> simp [fill1, hc]

theorem fill1_some (a : Chat) (c : Chat) (e : ComparedEntry) (hc : e.c1 = some c) :
    fill1 (some a) e
      = { e with messages1 := a.message_count,
                 last_message_datetime1 := a.last_message_datetime } := by
  simp [fill1, hc]

@[simp] theorem fill1_none (e : ComparedEntry) : fill1 none e = e := by
  cases hc : e.c1 <;> simp [fill1, hc]

@[simp] theorem fill2_identity (m : Option Chat) (e : ComparedEntry) :
    (fill2 m e).identity = e.identity := by
  cases hc : e.c2 <;> cases m <;> simp [fill2, hc]

@[simp] theorem fill2_c1 (m : Option Chat) (e : ComparedEntry) :
    (fill2 m e).c1 = e.c1 := by
  cases hc : e.c2 <;> cases m <;> simp [fill2, hc]

@[simp] theorem fill2_c2 (m : Option Chat) (e : ComparedEntry) :
    (fill2 m e).c2 = e.c2 := by
  cases hc : e.c2 <;> cases m <;> simp [fill2, hc]

@[simp] theorem fill2_messages1 (m : Option Chat) (e : ComparedEntry) :
    (fill2 m e).messages1 = e.messages1 := by
  cases hc : e.c2 <;> cases m <;> simp [fill2, hc]

@[simp] theorem fill2_lmd1 (m : Option Chat) (e : ComparedEntry) :
    (fill2 m e).last_message_datetime1 = e.last_message_datetime1 := by
  cases hc : e.c2 <;> cases m <;> simp [fill2, hc]

theorem fill2_some (b : Chat) (c : Chat) (e : ComparedEntry) (hc : e.c2 = some c) :
    fill2 (some b) e
      = { e with messages2 := b.message_count,
                 last_message_datetime2 := b.last_message_datetime } := by
  simp [fill2, hc]

@[simp] theorem fill2_none (e : ComparedEntry) : fill2 none e = e := by
  cases hc : e.c2 <;> simp [fill2, hc]

@[simp] theorem classify_identity (e : ComparedEntry) :
    (classify e).identity = e.identity := rfl

@[simp] theorem classify_c1 (e : ComparedEntry) : (classify e).c1 = e.c1 := rfl

@[simp] theorem classify_c2 (e : ComparedEntry) : (classify e).c2 = e.c2 := rfl

theorem classify_identical_iff (e : ComparedEntry) :
    (classify e).diff_status = some DIFFSTATUS_IDENTICAL ↔ identicalFlag e = true := by
  cases h : identicalFlag e <;>
    simp [classify, h, DIFFSTATUS_IDENTICAL, DIFFSTATUS_DIFFERENT]

@[simp] theorem updateStats_identity (chats1 chats2 : List Chat) (e : ComparedEntry) :
    (updateStats chats1 chats2 e).identity = e.identity := by
  simp [updateStats]

theorem compareChats_map_identity (chats1 chats2 : List Chat) :
    (compareChats chats1 chats2).map ComparedEntry.identity
      = chats1.map Chat.identity
        ++ ((chats2.filter fun c2 => (dictGet Chat.identity chats1 c2.identity).isNone).map
             Chat.identity) := by
  simp only [compareChats, List.map_append, List.map_map]
  congr 1

/-- C10: the comparison list built by `load_data` has exactly one entry
per conversation identity in the union of both sides: its identities
are pairwise distinct, an identity occurs among the entries iff it
occurs on side 1 or on side 2, and each entry's `c1`/`c2` fields hold
precisely the identity-matched record of the respective side (so a
both-sides identity yields one entry holding both records, and a
right-only identity yields one entry with `c1 = none`). -/
theorem claim_C10_compared_unique_per_identity (chats1 chats2 : List Chat)
    (h1 : (chats1.map Chat.identity).Nodup)
    (h2 : (chats2.map Chat.identity).Nodup) :
    ((compareChats chats1 chats2).map ComparedEntry.identity).Nodup
    ∧ (∀ k : String,
        (∃ e ∈ compareChats chats1 chats2, e.identity = k)
          ↔ (∃ a ∈ chats1, a.identity = k) ∨ (∃ b ∈ chats2, b.identity = k))
    ∧ (∀ e ∈ compareChats chats1 chats2,
        e.c1 = dictGet Chat.identity chats1 e.identity
        ∧ e.c2 = dictGet Chat.identity chats2 e.identity) := by
  refine ⟨?_, ?_, ?_⟩
  · rw [compareChats_map_identity, List.nodup_append]
    refine ⟨h1, ?_, ?_⟩
    · exact List.Nodup.sublist
        (List.Sublist.map Chat.identity (List.filter_sublist chats2)) h2
    · intro k hk1 hk2
      obtain ⟨b, hbf, hbk⟩ := List.mem_map.mp hk2
      obtain ⟨hb2, hbnone⟩ := List.mem_filter.mp hbf
      rw [Option.isNone_iff_eq_none] at hbnone
      obtain ⟨a, ha1, hak⟩ := List.mem_map.mp hk1
      have hbnone' : Chat.identity a ≠ b.identity := by
        have := (dictGet_eq_none_iff Chat.identity chats1 b.identity).mp
          (by exact_mod_cast hbnone)
        exact this a ha1
      exact hbnone' (hak.trans hbk.symm)
  · intro k
    constructor
    · rintro ⟨e, he, rfl⟩
      rcases List.mem_append.mp he with hL | hR
      · obtain ⟨a, ha, rfl⟩ := List.mem_map.mp hL
        exact Or.inl ⟨a, ha, rfl⟩
      · obtain ⟨b, hbf, rfl⟩ := List.mem_map.mp hR
        exact Or.inr ⟨b, (List.mem_filter.mp hbf).1, rfl⟩
    · rintro (⟨a, ha, rfl⟩ | ⟨b, hb, rfl⟩)
      · exact ⟨entryOfLeft chats2 a, List.mem_append_left _ (List.mem_map_of_mem _ ha), rfl⟩
      · cases hd : dictGet Chat.identity chats1 b.identity with
        | some a =>
          obtain ⟨ha1, hak⟩ := dictGet_mem _ _ _ _ hd
          refine ⟨entryOfLeft chats2 a, List.mem_append_left _ (List.mem_map_of_mem _ ha1), hak⟩
        | none =>
          refine ⟨entryOfRightOnly b, List.mem_append_right _ ?_, rfl⟩
          exact List.mem_map_of_mem _ (List.mem_filter.mpr ⟨hb, by simp [hd]⟩)
  · intro e he
    rcases List.mem_append.mp he with hL | hR
    · obtain ⟨a, ha, rfl⟩ := List.mem_map.mp hL
      exact ⟨(dictGet_of_nodup Chat.identity chats1 a h1 ha).symm, rfl⟩
    · obtain ⟨b, hbf, rfl⟩ := List.mem_map.mp hR
      obtain ⟨hb2, hbnone⟩ := List.mem_filter.mp hbf
      rw [Option.isNone_iff_eq_none] at hbnone
      refine ⟨?_, (dictGet_of_nodup Chat.identity chats2 b h2 hb2).symm⟩
      simpa using hbnone.symm

/-- A contact-diff entry of `con1diff`/`con2diff` (`load_later_data`
lines 4936-4951): a contact row copy augmented with the per-side
records under keys `"c1"`/`"c2"`. -/
structure ContactDiffEntry where
  base : Contact
  c1 : Option Contact
  c2 : Option Contact
  deriving Repr, DecidableEq

/-- A contact-group-diff entry of `congroup1diff`/`congroup2diff` (lines
4952-4965): a group row copy augmented with the per-side records under
keys `"g1"`/`"g2"`. -/
structure GroupDiffEntry where
  base : Group
  g1 : Option Group
  g2 : Option Group
  deriving Repr, DecidableEq

/-- An element of `con1difflist`/`con2difflist` (lines 4966-4981): a
copy of a contact-diff entry tagged `__type = "Contact"`, or a
group-derived pseudo-contact row.  These copies are not themselves
visited by the key-swap loop of `on_swap`, so they are embedded as
immutable values (the `__data` back-reference aliasing is not
modelled; no stated property reads through it). -/
inductive DiffListItem where
  | contactItem (c : ContactDiffEntry)
  | groupItem (g : GroupDiffEntry)
  deriving Repr, DecidableEq

/-- The per-chat diff computed by the scan worker for one conversation:
missing-message id lists and missing-participant lists, index 0 for
side 1, index 1 for side 2. -/
structure ChatDiff where
  messages1 : List Nat
  messages2 : List Nat
  participants1 : List Participant
  participants2 : List Participant
  deriving Repr, DecidableEq

/-- An element of `chats_differing[i]`: the compared chat entry under key
`"chat"` plus its diff under key `"diff"`. -/
structure DifferData where
  chat : ComparedEntry
  diff : ChatDiff
  deriving Repr, DecidableEq

/-- A database handle, with the fields the merger logic reads: the open
file's name, the account id (`db.id`), and the contact rows. -/
structure DbHandle where
  filename : String
  id : String
  contacts : List Contact
  deriving Repr, DecidableEq

/-- The data fields of the merger page that `on_swap` operates on. -/
structure MergerState where
  db1 : DbHandle
  db2 : DbHandle
  compared : List ComparedEntry
  con1diff : List ContactDiffEntry
  con2diff : List ContactDiffEntry
  con1difflist : List DiffListItem
  con2difflist : List DiffListItem
  congroup1diff : List GroupDiffEntry
  congroup2diff : List GroupDiffEntry
  chats_differing : Option (List DifferData × List DifferData)
  diffresults_html : Option (String × String)
  diffresults_info : Option (List (String × Nat) × List (String × Nat))
  deriving Repr, DecidableEq

/-- Effect of the key-swap loop of `on_swap` (lines 4285-4291) on a
compared entry: the dictionary carries the key pairs `"c1"`/`"c2"` and
`"messages1"`/`"messages2"`, so those two pairs swap; it has no
`"g1"`/`"g2"` pair, and `"last_message_datetime1"`/`"2"` match none of
the looped prefixes `"c"`/`"messages"`/`"g"`, so they stay put. -/
def swapComparedKeys (e : ComparedEntry) : ComparedEntry :=
  { e with c1 := e.c2, c2 := e.c1, messages1 := e.messages2, messages2 := e.messages1 }

/-- Effect of the key-swap loop on a contact-diff entry (key pair
`"c1"`/`"c2"`). -/
def swapContactKeys (c : ContactDiffEntry) : ContactDiffEntry :=
  { c with c1 := c.c2, c2 := c.c1 }

/-- Effect of the key-swap loop on a contact-group-diff entry (key pair
`"g1"`/`"g2"`). -/
def swapGroupKeys (g : GroupDiffEntry) : GroupDiffEntry :=
  { g with g1 := g.g2, g2 := g.g1 }

/-- MergerPage.on_swap lines 4237-4297, restricted to the data fields
(UI control state and relayout omitted).  Lines 4244-4246 exchange the
contact-diff lists and the contact difflists; lines 4247-4248 read
`self.congroup1diff, self.congroup2diff = self.congroup1diff,
self.congroup2diff`, so the group-diff lists are NOT exchanged; the
loop of lines 4285-4291 then swaps the per-item `"c"`/`"messages"`/
`"g"` key pairs inside `compared`, both contact-diff lists and both
group-diff lists; lines 4292-4297 reverse the two-element
`chats_differing`, `diffresults_html` and `diffresults_info` lists
when they are not `None`. -/
def on_swap (s : MergerState) : MergerState :=
  { db1 := s.db2,
    db2 := s.db1,
    compared := s.compared.map swapComparedKeys,
    con1diff := s.con2diff.map swapContactKeys,
    con2diff := s.con1diff.map swapContactKeys,
    con1difflist := s.con2difflist,
    con2difflist := s.con1difflist,
    congroup1diff := s.congroup1diff.map swapGroupKeys,
    congroup2diff := s.congroup2diff.map swapGroupKeys,
    chats_differing := s.chats_differing.map Prod.swap,
    diffresults_html := s.diffresults_html.map Prod.swap,
    diffresults_info := s.diffresults_info.map Prod.swap }

@[simp] theorem swapComparedKeys_swapComparedKeys (e : ComparedEntry) :
    swapComparedKeys (swapComparedKeys e) = e := rfl

@[simp] theorem swapContactKeys_swapContactKeys (c : ContactDiffEntry) :
    swapContactKeys (swapContactKeys c) = c := rfl

@[simp] theorem swapGroupKeys_swapGroupKeys (g : GroupDiffEntry) :
    swapGroupKeys (swapGroupKeys g) = g := rfl

/-- C8: applying `on_swap` twice returns the merger state to its original
value (structural equality of every data field). -/
theorem claim_C8_swap_involution (s : MergerState) : on_swap (on_swap s) = s := by
  cases s with
  | mk db1 db2 compared con1diff con2diff con1difflist con2difflist
      congroup1diff congroup2diff chats_differing diffresults_html diffresults_info =>
    simp only [on_swap, List.map_map, Option.map_map]
    simp [Function.comp_def]

/-- A concrete Scanned-state merger page: one compared chat present on
both sides with differing statistics, and one contact group differing
only on side 1. -/
def swapDemoState : MergerState :=
  { db1 := { filename := "one.db", id := "me", contacts := [] },
    db2 := { filename := "two.db", id := "metoo", contacts := [] },
    compared := [
      { id := 1, identity := "alice",
        c1 := some { id := 1, identity := "alice", title := "A",
                     message_count := some 5, last_message_datetime := some 100 },
        c2 := some { id := 7, identity := "alice", title := "A",
                     message_count := some 7, last_message_datetime := some 200 },
        messages1 := some 5, messages2 := some 7,
        last_message_datetime1 := some 100, last_message_datetime2 := some 200,
        diff_status := some DIFFSTATUS_DIFFERENT }],
    con1diff := [], con2diff := [], con1difflist := [], con2difflist := [],
    congroup1diff := [
      { base := { name := "Friends", members := "x y z" },
        g1 := some { name := "Friends", members := "x y z" }, g2 := none }],
    congroup2diff := [],
    chats_differing := some ([], []),
    diffresults_html := some ("left", "right"),
    diffresults_info := some ([], []) }

/-- C1, evaluated at the failing input `swapDemoState`: after one Swap,
side 1's contact-group diff list still holds the "Friends" entry and
side 2's is still empty (the group-diff lists do not exchange sides,
lines 4247-4248), and the per-chat `last_message_datetime1` keeps side
1's old value even though `messages1` now holds side 2's count (the
timestamp key pair is missing from the swap loop of lines 4285-4291).
The claim that every per-side field transposes is therefore false of
the code; the handles themselves are only re-referenced, not
modified. -/
theorem claim_C1_swap_skips_group_lists_and_timestamps :
    ((on_swap swapDemoState).congroup1diff.map (fun g => g.base.name) = ["Friends"])
    ∧ (on_swap swapDemoState).congroup2diff = []
    ∧ ((on_swap swapDemoState).compared.map ComparedEntry.messages1 = [some 7])
    ∧ ((on_swap swapDemoState).compared.map ComparedEntry.last_message_datetime1 = [some 100])
    ∧ (on_swap swapDemoState).db1 = swapDemoState.db2
    ∧ (on_swap swapDemoState).db2 = swapDemoState.db1 := by
  decide

theorem identicalFlag_iff (e : ComparedEntry) :
    identicalFlag e = true ↔
      e.c1.isSome = true ∧ e.c2.isSome = true ∧ e.messages1 = e.messages2
        ∧ e.last_message_datetime1 = e.last_message_datetime2 := by
  simp [identicalFlag, and_assoc]

theorem fill1_messages1_of_some (a c : Chat) (e : ComparedEntry) (hc : e.c1 = some c) :
    (fill1 (some a) e).messages1 = a.message_count := by
  simp [fill1, hc]

theorem fill1_lmd1_of_some (a c : Chat) (e : ComparedEntry) (hc : e.c1 = some c) :
    (fill1 (some a) e).last_message_datetime1 = a.last_message_datetime := by
  simp [fill1, hc]

theorem fill2_messages2_of_some (b c : Chat) (e : ComparedEntry) (hc : e.c2 = some c) :
    (fill2 (some b) e).messages2 = b.message_count := by
  simp [fill2, hc]

theorem fill2_lmd2_of_some (b c : Chat) (e : ComparedEntry) (hc : e.c2 = some c) :
    (fill2 (some b) e).last_message_datetime2 = b.last_message_datetime := by
  simp [fill2, hc]

/-- C3: an entry of the comparison list (after `load_later_data` has run
on databases whose conversation identities are unique per side) is
classified Identical iff both sides have a conversation with the
entry's identity, with equal message_count and equal last-message
datetime.  In particular two conversations with different identities
are never jointly classified Identical, and a conversation present on
only one side is never classified Identical. -/
theorem claim_C3_identical_classification (chats1 chats2 : List Chat)
    (h1 : (chats1.map Chat.identity).Nodup)
    (h2 : (chats2.map Chat.identity).Nodup)
    (e : ComparedEntry) (he : e ∈ loadCompared chats1 chats2) :
    e.diff_status = some DIFFSTATUS_IDENTICAL ↔
      ∃ a ∈ chats1, ∃ b ∈ chats2,
        a.identity = e.identity ∧ b.identity = e.identity
        ∧ a.message_count = b.message_count
        ∧ a.last_message_datetime = b.last_message_datetime := by
  obtain ⟨e0, he0, rfl⟩ := List.mem_map.mp he
  rw [updateStats_identity]
  simp only [updateStats]
  rw [classify_identical_iff, identicalFlag_iff]
  rcases List.mem_append.mp he0 with hL | hR
  · obtain ⟨a0, ha0, rfl⟩ := List.mem_map.mp hL
    simp only [entryOfLeft_identity]
    have hm1 : dictGet Chat.identity chats1 a0.identity = some a0 :=
      dictGet_of_nodup Chat.identity chats1 a0 h1 ha0
    rw [hm1]
    cases hm2 : dictGet Chat.identity chats2 a0.identity with
    | some b0 =>
      obtain ⟨hb0mem, hb0id⟩ := dictGet_mem _ _ _ _ hm2
      have hc1 : (entryOfLeft chats2 a0).c1 = some a0 := rfl
      have hc2 : (entryOfLeft chats2 a0).c2 = some b0 := by
        rw [entryOfLeft_c2, hm2]
      have hYc2 : (fill1 (some a0) (entryOfLeft chats2 a0)).c2 = some b0 := by
        rw [fill1_c2, hc2]
      constructor
      · rintro ⟨-, -, hmc, hlmd⟩
        rw [fill2_messages1, fill1_messages1_of_some a0 a0 _ hc1,
            fill2_messages2_of_some b0 b0 _ hYc2] at hmc
        rw [fill2_lmd1, fill1_lmd1_of_some a0 a0 _ hc1,
            fill2_lmd2_of_some b0 b0 _ hYc2] at hlmd
        exact ⟨a0, ha0, b0, hb0mem, rfl, hb0id, hmc, hlmd⟩
      · rintro ⟨a, ha, b, hb, haid, hbid, hmc, hlmd⟩
        have ha' : dictGet Chat.identity chats1 a0.identity = some a := by
          rw [← haid]; exact dictGet_of_nodup Chat.identity chats1 a h1 ha
        have hb' : dictGet Chat.identity chats2 a0.identity = some b := by
          rw [← hbid]; exact dictGet_of_nodup Chat.identity chats2 b h2 hb
        have haa : a0 = a := by rw [hm1] at ha'; exact Option.some_injective _ ha'
        have hbb : b0 = b := by rw [hm2] at hb'; exact Option.some_injective _ hb'
        refine ⟨?_, ?_, ?_, ?_⟩
        · rw [fill2_c1, fill1_c1, hc1]; rfl
        · rw [fill2_c2, hYc2]; rfl
        · rw [fill2_messages1, fill1_messages1_of_some a0 a0 _ hc1,
              fill2_messages2_of_some b0 b0 _ hYc2, haa, hbb]; exact hmc
        · rw [fill2_lmd1, fill1_lmd1_of_some a0 a0 _ hc1,
              fill2_lmd2_of_some b0 b0 _ hYc2, haa, hbb]; exact hlmd
    | none =>
      have hc2 : (entryOfLeft chats2 a0).c2 = none := by
        rw [entryOfLeft_c2, hm2]
      constructor
      · rintro ⟨-, hsome, -, -⟩
        rw [fill2_c2, fill1_c2, hc2] at hsome
        simp at hsome
      · rintro ⟨a, ha, b, hb, haid, hbid, -, -⟩
        have hb' : dictGet Chat.identity chats2 a0.identity = some b := by
          rw [← hbid]; exact dictGet_of_nodup Chat.identity chats2 b h2 hb
        rw [hm2] at hb'; exact absurd hb' (by simp)
  · obtain ⟨b0, hbf, rfl⟩ := List.mem_map.mp hR
    obtain ⟨hb2, hbnone⟩ := List.mem_filter.mp hbf
    rw [Option.isNone_iff_eq_none] at hbnone
    have hbnone' : dictGet Chat.identity chats1 b0.identity = none := by
      exact_mod_cast hbnone
    constructor
    · rintro ⟨hsome, -, -, -⟩
      rw [fill2_c1, fill1_c1, entryOfRightOnly_c1] at hsome
      simp at hsome
    · rintro ⟨a, ha, b, hb, haid, hbid, -, -⟩
      simp only [entryOfRightOnly_identity] at haid
      have ha' : dictGet Chat.identity chats1 b0.identity = some a := by
        rw [← haid]; exact dictGet_of_nodup Chat.identity chats1 a h1 ha
      rw [hbnone'] at ha'; exact absurd ha' (by simp)

/-- Witness for C3 at a concrete input: both sides hold chat "alice" with
10 messages and last-message datetime 100, so its entry is classified
Identical. -/
theorem claim_C3_identical_classification_witness :
    (([{ id := 1, identity := "alice", title := "A", message_count := some 10,
         last_message_datetime := some 100 }] : List Chat).map Chat.identity).Nodup
    ∧ (([{ id := 7, identity := "alice", title := "A", message_count := some 10,
           last_message_datetime := some 100 }] : List Chat).map Chat.identity).Nodup
    ∧ ({ id := 1, identity := "alice",
         c1 := some { id := 1, identity := "alice", title := "A",
                      message_count := some 10, last_message_datetime := some 100 },
         c2 := some { id := 7, identity := "alice", title := "A",
                      message_count := some 10, last_message_datetime := some 100 },
         messages1 := some 10, messages2 := some 10,
         last_message_datetime1 := some 100, last_message_datetime2 := some 100,
         diff_status := some DIFFSTATUS_IDENTICAL } : ComparedEntry)
        ∈ loadCompared
            [{ id := 1, identity := "alice", title := "A", message_count := some 10,
               last_message_datetime := some 100 }]
            [{ id := 7, identity := "alice", title := "A", message_count := some 10,
               last_message_datetime := some 100 }]
    ∧ (({ id := 1, identity := "alice",
          c1 := some { id := 1, identity := "alice", title := "A",
                       message_count := some 10, last_message_datetime := some 100 },
          c2 := some { id := 7, identity := "alice", title := "A",
                       message_count := some 10, last_message_datetime := some 100 },
          messages1 := some 10, messages2 := some 10,
          last_message_datetime1 := some 100, last_message_datetime2 := some 100,
          diff_status := some DIFFSTATUS_IDENTICAL } : ComparedEntry).diff_status
            = some DIFFSTATUS_IDENTICAL ↔
        ∃ a ∈ ([{ id := 1, identity := "alice", title := "A", message_count := some 10,
                  last_message_datetime := some 100 }] : List Chat),
          ∃ b ∈ ([{ id := 7, identity := "alice", title := "A", message_count := some 10,
                    last_message_datetime := some 100 }] : List Chat),
            a.identity = "alice" ∧ b.identity = "alice"
            ∧ a.message_count = b.message_count
            ∧ a.last_message_datetime = b.last_message_datetime) := by
  refine ⟨by decide, by decide, by decide, ?_⟩
  exact claim_C3_identical_classification _ _ (by decide) (by decide) _ (by decide)

/-- Witness for C10 at a concrete input: side 1 has chats "alice" and
"bob", side 2 has "bob" and "carol". -/
theorem claim_C10_compared_unique_per_identity_witness :
    (([{ id := 1, identity := "alice", title := "A", message_count := none,
         last_message_datetime := none },
       { id := 2, identity := "bob", title := "B", message_count := none,
         last_message_datetime := none }] : List Chat).map Chat.identity).Nodup
    ∧ (([{ id := 5, identity := "bob", title := "B", message_count := none,
           last_message_datetime := none },
         { id := 6, identity := "carol", title := "C", message_count := none,
           last_message_datetime := none }] : List Chat).map Chat.identity).Nodup
    ∧ (((compareChats
          [{ id := 1, identity := "alice", title := "A", message_count := none,
             last_message_datetime := none },
           { id := 2, identity := "bob", title := "B", message_count := none,
             last_message_datetime := none }]
          [{ id := 5, identity := "bob", title := "B", message_count := none,
             last_message_datetime := none },
           { id := 6, identity := "carol", title := "C", message_count := none,
             last_message_datetime := none }]).map ComparedEntry.identity).Nodup) := by
  refine ⟨by decide, by decide, ?_⟩
  exact (claim_C10_compared_unique_per_identity _ _ (by decide) (by decide)).1

/-- Line 4408 of `on_change_list_chats`:
`[ids[j:j+999] for j in range(0, len(ids), 999)]` — consecutive slices
of at most 999 ids.  Embedded with a structural fuel argument (each
step drops 999 elements of a non-empty list, so `l.length` steps
always suffice), which keeps the definition kernel-computable. -/
def chunksFuel {α : Type} : Nat → List α → List (List α)
  | 0, _ => []
  | _ + 1, [] => []
  | fuel + 1, x :: xs => (x :: xs).take 999 :: chunksFuel fuel ((x :: xs).drop 999)

/-- The chunk list for a given id list. -/
def chunks999 {α : Type} (l : List α) : List (List α) := chunksFuel l.length l

/-- Lines 4410-4411: one numbered SQL parameter per id of the chunk
(`"?1", "?2", ...` with `params = {"1": id1, "2": id2, ...}`). -/
def queryParams {α : Type} (chunk : List α) : List (String × α) :=
  chunk.enum.map fun p => (toString (p.1 + 1), p.2)

theorem chunksFuel_flatten {α : Type} :
    ∀ (fuel : Nat) (l : List α), l.length ≤ fuel → (chunksFuel fuel l).flatten = l := by
  intro fuel
  induction fuel with
  | zero =>
    intro l hl
    rw [Nat.le_zero] at hl
    rw [List.length_eq_zero] at hl
    subst hl
    rfl
  | succ n ih =>
    intro l hl
    cases l with
    | nil => rfl
    | cons x xs =>
      simp only [chunksFuel, List.flatten_cons]
      rw [ih ((x :: xs).drop 999)
        (by simp only [List.length_drop, List.length_cons]
            simp only [List.length_cons] at hl
            omega)]
      exact List.take_append_drop 999 (x :: xs)

theorem chunksFuel_mem_le {α : Type} :
    ∀ (fuel : Nat) (l : List α) (c : List α), c ∈ chunksFuel fuel l → c.length ≤ 999 := by
  intro fuel
  induction fuel with
  | zero => intro l c hc; simp [chunksFuel] at hc
  | succ n ih =>
    intro l c hc
    cases l with
    | nil => simp [chunksFuel] at hc
    | cons x xs =>
      simp only [chunksFuel, List.mem_cons] at hc
      rcases hc with rfl | hc
      · simp
      · exact ih _ _ hc

theorem take_mem_chunks999 {α : Type} (l : List α) (h : l ≠ []) :
    l.take 999 ∈ chunks999 l := by
  rw [chunks999]
  cases l with
  | nil => exact absurd rfl h
  | cons x xs =>
    simp only [List.length_cons, chunksFuel]
    exact List.mem_cons_self _ _

/-- C7: for every list of missing-message ids, the retrieval of
`on_change_list_chats` is split into consecutive chunks of at most 999
ids whose concatenation is exactly the original id list (hence the
concatenated per-chunk query results cover exactly the requested
messages), and each chunk's query carries one numbered parameter per
id — never more than 999 parameters. -/
theorem claim_C7_chunked_retrieval {α : Type} (ids : List α) :
    (chunks999 ids).flatten = ids
    ∧ (∀ c ∈ chunks999 ids,
        c.length ≤ 999
        ∧ (queryParams c).length = c.length
        ∧ (queryParams c).length ≤ 999) := by
  refine ⟨chunksFuel_flatten ids.length ids le_rfl, ?_⟩
  intro c hc
  have hlen : c.length ≤ 999 := chunksFuel_mem_le ids.length ids c hc
  have hq : (queryParams c).length = c.length := by
    simp [queryParams]
  exact ⟨hlen, hq, hq ▸ hlen⟩

/-- Witness for C7 at the spec's concrete scenario: 2,500 ids are split
so that their concatenation is the original list, and the first chunk
(the first 999 ids) stays within the 999-parameter ceiling. -/
theorem claim_C7_chunked_retrieval_witness :
    (chunks999 (List.range 2500)).flatten = List.range 2500
    ∧ ((List.range 2500).take 999 ∈ chunks999 (List.range 2500)
    ∧ ((List.range 2500).take 999).length ≤ 999
    ∧ (queryParams ((List.range 2500).take 999)).length = ((List.range 2500).take 999).length
    ∧ (queryParams ((List.range 2500).take 999)).length ≤ 999) := by
  have h := claim_C7_chunked_retrieval (List.range 2500)
  have hmem : (List.range 2500).take 999 ∈ chunks999 (List.range 2500) :=
    take_mem_chunks999 (List.range 2500)
      (List.ne_nil_of_length_pos (by rw [List.length_range]; norm_num))
  exact ⟨h.1, hmem, h.2 _ hmem⟩

/-- Modelled from the spec: `util.safedivf`, the safe-division helper of
the progress computation, lives in the `util` module which is not part
of the sources under review; the spec gives the progress formula
`ceil(100 * completedUnits / totalUnits)`, so safe division is
modelled as exact division, 0 when the denominator is 0. -/
def safedivf (a b : Nat) : ℚ := if b = 0 then 0 else (a : ℚ) / (b : ℚ)

/-- on_scan_all_result lines 4586-4587: `i, count = result["index"] + 1,
len(self.compared)` and `percent = math.ceil(100 * util.safedivf(i, count))`. -/
def scanPercent (index comparedCount : Nat) : ℤ :=
  ⌈(100 : ℚ) * safedivf (index + 1) comparedCount⌉

/-- on_merge_all_result lines 4663-4664: `i, count = result["index"] + 1,
len(result["params"]["chats"])` and the same ceiling formula. -/
def mergePercent (index chatCount : Nat) : ℤ :=
  ⌈(100 : ℚ) * safedivf (index + 1) chatCount⌉

/-- C9: whenever the job's scope is non-empty, the percent value carried
by a scan or merge progress event equals
`ceil(100 * completedUnits / totalUnits)`, with `completedUnits =
index + 1` conversations processed so far and `totalUnits` the number
of conversations in the job's scope. -/
theorem claim_C9_percent_formula (index total : Nat) (h : 0 < total) :
    scanPercent index total = ⌈(100 * ((index : ℚ) + 1)) / (total : ℚ)⌉
    ∧ mergePercent index total = ⌈(100 * ((index : ℚ) + 1)) / (total : ℚ)⌉ := by
  have ht : (total : ℚ) ≠ 0 := by exact_mod_cast Nat.pos_iff_ne_zero.mp h
  have hne : total ≠ 0 := Nat.pos_iff_ne_zero.mp h
  constructor <;>
  · simp only [scanPercent, mergePercent, safedivf, hne, if_false]
    rw [mul_div_assoc]
    push_cast
    ring_nf

/-- Witness for C9: the seventh of 100 conversations (index 6) reports
`ceil(700/100) = 7` percent. -/
theorem claim_C9_percent_formula_witness :
    0 < 100
    ∧ scanPercent 6 100 = ⌈(100 * ((6 : ℚ) + 1)) / (100 : ℚ)⌉
    ∧ mergePercent 6 100 = ⌈(100 * ((6 : ℚ) + 1)) / (100 : ℚ)⌉
    ∧ scanPercent 6 100 = 7 := by
  refine ⟨by norm_num, (claim_C9_percent_formula 6 100 (by norm_num)).1,
    (claim_C9_percent_formula 6 100 (by norm_num)).2, ?_⟩
  norm_num [scanPercent, safedivf]

/-- Python `for c in lst: if P(c): lst.remove(c)`: iteration advances an
index over the mutating list (so after a removal the element sliding
into the freed slot is skipped), and `remove` drops the first
structurally-equal element.  `fuel` bounds the iterations; the index
grows by one each step and the list never grows, so `l.length`
iterations always suffice, keeping the definition structural and
kernel-computable. -/
def pyRemoveEachGo {α : Type} [DecidableEq α] (P : α → Bool) : Nat → Nat → List α → List α
  | 0, _, l => l
  | fuel + 1, i, l =>
    if h : i < l.length then
      let c := l.get ⟨i, h⟩
      if P c then pyRemoveEachGo P fuel (i + 1) (l.erase c)
      else pyRemoveEachGo P fuel (i + 1) l
    else l

/-- Entry point of the remove-while-iterating loop. -/
def pyRemoveEach {α : Type} [DecidableEq α] (P : α → Bool) (l : List α) : List α :=
  pyRemoveEachGo P l.length 0 l

/-- on_merge_chat lines 4798-4800: after a successful per-chat merge,
walk `chats_differing` and remove every entry satisfying
`c["chat"]["c2"]["id"] == chat["id"]`.  The left-hand id is read from
the entry's SIDE-2 record while `chat` is the SOURCE-side record (the
side-1 record when merging left-to-right), so row ids of two different
databases are compared.  (An entry whose `"c2"` record is `None` would
raise a TypeError in the source; the inputs considered here all carry
a side-2 record.) -/
def removeMergedFromDiffering (cds : List DifferData) (chat : Chat) : List DifferData :=
  pyRemoveEach (fun d => (d.chat.c2.map Chat.id) == some chat.id) cds

/-- The diff record of a chat with nothing left to list. -/
def emptyChatDiff : ChatDiff :=
  { messages1 := [], messages2 := [], participants1 := [], participants2 := [] }

/-- A differing-chats entry for chat "bob", whose side-2 record has local
row id 7. -/
def bobDiffer : DifferData :=
  { chat :=
      { id := 3, identity := "bob",
        c1 := some { id := 3, identity := "bob", title := "B",
                     message_count := some 4, last_message_datetime := some 50 },
        c2 := some { id := 7, identity := "bob", title := "B",
                     message_count := some 5, last_message_datetime := some 60 },
        messages1 := some 4, messages2 := some 5,
        last_message_datetime1 := some 50, last_message_datetime2 := some 60,
        diff_status := some DIFFSTATUS_DIFFERENT },
    diff := emptyChatDiff }

/-- The side-1 record of the just-merged chat "alice": its local row id
in database 1 happens to be 7 as well. -/
def aliceSourceChat : Chat :=
  { id := 7, identity := "alice", title := "A",
    message_count := some 9, last_message_datetime := some 90 }

/-- A differing-chats entry for chat "alice" itself, whose side-2 record
has local row id 9 (row ids are assigned independently per database). -/
def aliceDiffer : DifferData :=
  { chat :=
      { id := 7, identity := "alice",
        c1 := some aliceSourceChat,
        c2 := some { id := 9, identity := "alice", title := "A",
                     message_count := some 2, last_message_datetime := some 20 },
        messages1 := some 9, messages2 := some 2,
        last_message_datetime1 := some 90, last_message_datetime2 := some 20,
        diff_status := some DIFFSTATUS_DIFFERENT },
    diff := emptyChatDiff }

/-- C2, evaluated at the failing input: removing the merged chat "alice"
(side-1 row id 7) from the differing-chats bookkeeping removes the
entry of the UNRELATED chat "bob" (because bob's side-2 record happens
to carry row id 7 in the other database), yet fails to remove the
entry of "alice" itself (whose side-2 row id is 9).  The claim that
entries are selected by identity, never by cross-database row-id
equality, is therefore false of the code. -/
theorem claim_C2_removal_compares_rowids_across_databases :
    removeMergedFromDiffering [bobDiffer] aliceSourceChat = []
    ∧ bobDiffer.chat.identity ≠ aliceSourceChat.identity
    ∧ removeMergedFromDiffering [aliceDiffer] aliceSourceChat = [aliceDiffer]
    ∧ aliceDiffer.chat.identity = aliceSourceChat.identity := by
  decide

/-- One write operation issued against the target database handle during
a per-chat merge. -/
inductive MergeOp where
  | insertChat (chatIdentity : String)
  | insertContacts (cs : List Contact)
  | insertParticipants (chatIdentity : String) (ps : List Participant)
  | insertMessages (chatIdentity : String) (ms : List Nat)
  | clearCache
  deriving Repr, DecidableEq

/-- on_merge_chat lines 4760-4763: the contacts newly required by the
missing participants — those whose contact row carries an `"id"` key
and whose identity is neither of the two account ids nor among the
target database's contact identities. -/
def newContacts (db1 db2 : DbHandle) (participants : List Participant) : List Contact :=
  let cc2 := [db1.id, db2.id] ++ db2.contacts.map Contact.identity
  (participants.filter fun p => p.contact.hasId && !(cc2.contains p.identity)).map
    Participant.contact

/-- The sequence of writes `on_merge_chat` issues against the target
database (lines 4780-4801) once the user confirms: nothing at all when
there is neither a missing message nor a missing participant (guard of
line 4749); otherwise, in order: `insert_chat` when the target lacks
the conversation (the inserted copy carries the source chat's
identity), `insert_contacts` for the new contacts when there are
missing participants that need them, `insert_participants`,
`insert_messages` when there are missing messages, and finally
`clear_cache`. -/
def mergeChatTrace (db1 db2 : DbHandle) (chat : Chat) (chat2 : Option Chat)
    (messages : List Nat) (participants : List Participant) : List MergeOp :=
  if messages = [] ∧ participants = [] then []
  else
    let tgt := (chat2.getD chat).identity
    let contacts2 := newContacts db1 db2 participants
    (if chat2 = none then [MergeOp.insertChat tgt] else [])
    ++ (if participants ≠ [] then
          (if contacts2 ≠ [] then [MergeOp.insertContacts contacts2] else [])
          ++ [MergeOp.insertParticipants tgt participants]
        else [])
    ++ (if messages ≠ [] then [MergeOp.insertMessages tgt messages] else [])
    ++ [MergeOp.clearCache]

/-- Recogniser for chat-insertion operations. -/
def isInsertChat : MergeOp → Bool
  | .insertChat _ => true
  | _ => false

/-- Recogniser for contact-insertion operations. -/
def isInsertContacts : MergeOp → Bool
  | .insertContacts _ => true
  | _ => false

/-- Recogniser for participant-insertion operations. -/
def isInsertParticipants : MergeOp → Bool
  | .insertParticipants _ _ => true
  | _ => false

/-- Recogniser for message-insertion operations. -/
def isInsertMessages : MergeOp → Bool
  | .insertMessages _ _ => true
  | _ => false

/-- Dependency rank of an operation kind: chat before contacts before
participants before messages before the cache flush. -/
def opRank : MergeOp → Nat
  | .insertChat _ => 0
  | .insertContacts _ => 1
  | .insertParticipants _ _ => 2
  | .insertMessages _ _ => 3
  | .clearCache => 4

theorem mergeChatTrace_rank_sorted (db1 db2 : DbHandle) (chat : Chat)
    (chat2 : Option Chat) (messages : List Nat) (participants : List Participant) :
    (mergeChatTrace db1 db2 chat chat2 messages participants).Pairwise
      (fun x y => opRank x ≤ opRank y) := by
  unfold mergeChatTrace
  split
  · exact List.Pairwise.nil
  · split_ifs <;>
      simp [List.pairwise_append, List.pairwise_cons, opRank] <;>
      split <;>
      simp [List.pairwise_cons, opRank]

theorem pairwise_rank_lt {t : List MergeOp}
    (hp : t.Pairwise fun x y => opRank x ≤ opRank y)
    {i j : Nat} (hi : i < t.length) (hj : j < t.length)
    (hij : opRank (t.get ⟨i, hi⟩) < opRank (t.get ⟨j, hj⟩)) : i < j := by
  by_contra hc
  push_neg at hc
  rcases Nat.eq_or_lt_of_le hc with heq | hlt
  · subst heq
    exact absurd rfl (by omega : ¬(opRank (t.get ⟨j, hi⟩) = opRank (t.get ⟨j, hj⟩)))
  · have := List.pairwise_iff_get.mp hp ⟨j, hj⟩ ⟨i, hi⟩ hlt
    omega

theorem opRank_of_isInsertChat {op : MergeOp} (h : isInsertChat op = true) :
    opRank op = 0 := by
  cases op <;> simp_all [isInsertChat, opRank]

theorem opRank_of_isInsertContacts {op : MergeOp} (h : isInsertContacts op = true) :
    opRank op = 1 := by
  cases op <;> simp_all [isInsertContacts, opRank]

theorem opRank_of_isInsertParticipants {op : MergeOp} (h : isInsertParticipants op = true) :
    opRank op = 2 := by
  cases op <;> simp_all [isInsertParticipants, opRank]

theorem opRank_of_isInsertMessages {op : MergeOp} (h : isInsertMessages op = true) :
    opRank op = 3 := by
  cases op <;> simp_all [isInsertMessages, opRank]

/-- C4: within one confirmed per-chat merge, when the target lacks the
conversation the chat insertion is the very first write; every contact
insertion precedes every participant insertion; every participant
insertion precedes every message insertion; and whenever messages are
inserted, either the target already had the conversation or a chat
insertion occurred strictly earlier in the trace — so a message is
never inserted into a target conversation that does not already exist
there. -/
theorem claim_C4_merge_chat_insert_order (db1 db2 : DbHandle) (chat : Chat)
    (chat2 : Option Chat) (messages : List Nat) (participants : List Participant)
    (t : List MergeOp) (ht : t = mergeChatTrace db1 db2 chat chat2 messages participants) :
    (chat2 = none → t ≠ [] → t.head? = some (MergeOp.insertChat chat.identity))
    ∧ (∀ i j (hi : i < t.length) (hj : j < t.length),
        isInsertContacts (t.get ⟨i, hi⟩) = true →
        isInsertParticipants (t.get ⟨j, hj⟩) = true → i < j)
    ∧ (∀ i j (hi : i < t.length) (hj : j < t.length),
        isInsertParticipants (t.get ⟨i, hi⟩) = true →
        isInsertMessages (t.get ⟨j, hj⟩) = true → i < j)
    ∧ (∀ j (hj : j < t.length), isInsertMessages (t.get ⟨j, hj⟩) = true →
        chat2 ≠ none ∨ ∃ i, ∃ hi : i < t.length, i < j
          ∧ isInsertChat (t.get ⟨i, hi⟩) = true) := by
  have hp : t.Pairwise fun x y => opRank x ≤ opRank y := by
    rw [ht]; exact mergeChatTrace_rank_sorted db1 db2 chat chat2 messages participants
  have hhead : chat2 = none → t ≠ [] → t.head? = some (MergeOp.insertChat chat.identity) := by
    intro h2 hne
    subst ht
    unfold mergeChatTrace at hne ⊢
    by_cases hg : messages = [] ∧ participants = []
    · simp [hg] at hne
    · simp [hg, h2, Option.getD]
  refine ⟨hhead, ?_, ?_, ?_⟩
  · intro i j hi hj hci hpj
    exact pairwise_rank_lt hp hi hj
      (by rw [opRank_of_isInsertContacts hci, opRank_of_isInsertParticipants hpj]; omega)
  · intro i j hi hj hpi hmj
    exact pairwise_rank_lt hp hi hj
      (by rw [opRank_of_isInsertParticipants hpi, opRank_of_isInsertMessages hmj]; omega)
  · intro j hj hmj
    by_cases h2 : chat2 = none
    · right
      have hne : t ≠ [] := List.ne_nil_of_length_pos (Nat.lt_of_le_of_lt (Nat.zero_le j) hj)
      have hh := hhead h2 hne
      cases t with
      | nil => exact absurd rfl hne
      | cons x rest =>
        have hx : x = MergeOp.insertChat chat.identity := by
          simpa using hh
        refine ⟨0, Nat.succ_pos _, ?_, ?_⟩
        · rcases Nat.eq_or_lt_of_le (Nat.zero_le j) with heq | hlt
          · exfalso
            subst heq
            have hget : (x :: rest).get ⟨0, hj⟩ = x := rfl
            rw [hget, hx] at hmj
            simp [isInsertMessages] at hmj
          · exact hlt
        · rw [show (x :: rest).get ⟨0, Nat.succ_pos _⟩ = x from rfl, hx]
          rfl
    · exact Or.inl h2

/-- Left-hand database of the merge demonstrations. -/
def demoDb1 : DbHandle := { filename := "one.db", id := "me", contacts := [] }

/-- Right-hand database of the merge demonstrations. -/
def demoDb2 : DbHandle := { filename := "two.db", id := "metoo", contacts := [] }

/-- A missing participant whose contact row is new to the target. -/
def demoBobPart : Participant :=
  { identity := "bob", contact := { hasId := true, id := 5, identity := "bob", name := "Bob" } }

/-- Witness for C4 at a concrete input: merging chat "alice" (absent on
the target) with one missing message and one missing participant
starts by inserting the chat, and the contact insertion (index 1)
precedes the participant insertion (index 2). -/
theorem claim_C4_merge_chat_insert_order_witness :
    ((mergeChatTrace demoDb1 demoDb2 aliceSourceChat none [101] [demoBobPart]).head?
        = some (MergeOp.insertChat aliceSourceChat.identity))
    ∧ (1 : Nat) < 2 := by
  have h := claim_C4_merge_chat_insert_order demoDb1 demoDb2 aliceSourceChat none
    [101] [demoBobPart] _ rfl
  exact ⟨h.1 rfl (by decide), h.2.1 1 2 (by decide) (by decide) (by decide) (by decide)⟩

/-- load_later_data lines 4952-4958 (and, with the sides exchanged,
lines 4959-4965): a group of the first list yields a diff entry iff
the other side's name map has no group of the same name (`not g2`) or
the same-named group's `members` STRING differs; the entry carries the
group row and the matched other-side row (possibly `None`). -/
def groupDiff (gs1 gs2 : List Group) : List GroupDiffEntry :=
  gs1.filterMap fun g1 =>
    match dictGet Group.name gs2 g1.name with
    | none => some { base := g1, g1 := some g1, g2 := none }
    | some g2 =>
      if g2.members ≠ g1.members then some { base := g1, g1 := some g1, g2 := some g2 }
      else none

/-- Python `s.split(sep)` over the character list: consecutive
separators produce empty tokens, and splitting the empty string gives
one empty token. -/
def pySplitChars (sep : Char) : List Char → List (List Char)
  | [] => [[]]
  | c :: rest =>
    let r := pySplitChars sep rest
    if c = sep then [] :: r
    else
      match r with
      | t :: ts => (c :: t) :: ts
      | [] => [[c]]

/-- Python `s.split(sep)` for a string. -/
def pySplit (sep : Char) (s : String) : List String :=
  (pySplitChars sep s.data).map fun cs => String.mk cs

/-- Python `set(group["members"].split(" "))` — the member identity SET
of a contact-group row.  `on_merge_contacts` (line 4470) parses members
this way; the group diffing of `load_later_data` compares the raw
`members` strings instead. -/
def memberSet (g : Group) : Finset String := (pySplit ' ' g.members).toFinset

/-- C5 counterexample: both sides hold group "Friends" with the SAME
member set {x, y}, stored as differently-ordered member strings
("x y" vs "y x").  The code compares the raw strings, so the group
appears on BOTH only-lists, while the claim requires a group whose
name and member set both match to appear on neither list. -/
theorem claim_C5_counterexample :
    memberSet { name := "Friends", members := "x y" }
      = memberSet { name := "Friends", members := "y x" }
    ∧ (groupDiff [{ name := "Friends", members := "x y" }]
        [{ name := "Friends", members := "y x" }]).map (fun e => e.base.name)
      = ["Friends"]
    ∧ (groupDiff [{ name := "Friends", members := "y x" }]
        [{ name := "Friends", members := "x y" }]).map (fun e => e.base.name)
      = ["Friends"] := by
  decide

theorem groupDiff_base_mem_iff (gs1 gs2 : List Group)
    (h2 : (gs2.map Group.name).Nodup) (g : Group) (hg : g ∈ gs1) :
    (∃ e ∈ groupDiff gs1 gs2, e.base = g)
      ↔ (∀ g2 ∈ gs2, g2.name ≠ g.name)
        ∨ (∃ g2 ∈ gs2, g2.name = g.name ∧ g2.members ≠ g.members) := by
  constructor
  · rintro ⟨e, he, hbase⟩
    rw [groupDiff, List.mem_filterMap] at he
    obtain ⟨a, ha, hfa⟩ := he
    cases hd : dictGet Group.name gs2 a.name with
    | none =>
      rw [hd] at hfa
      simp only [Option.some.injEq] at hfa
      have hag : a = g := by rw [← hbase, ← hfa]
      subst hag
      exact Or.inl ((dictGet_eq_none_iff Group.name gs2 a.name).mp hd)
    | some g2 =>
      rw [hd] at hfa
      dsimp only at hfa
      by_cases hm : g2.members ≠ a.members
      · rw [if_pos hm] at hfa
        simp only [Option.some.injEq] at hfa
        have hag : a = g := by rw [← hbase, ← hfa]
        subst hag
        obtain ⟨hmem, hname⟩ := dictGet_mem _ _ _ _ hd
        exact Or.inr ⟨g2, hmem, hname, hm⟩
      · rw [if_neg hm] at hfa
        exact absurd hfa (by simp)
  · intro h
    cases hd : dictGet Group.name gs2 g.name with
    | none =>
      refine ⟨{ base := g, g1 := some g, g2 := none }, ?_, rfl⟩
      rw [groupDiff, List.mem_filterMap]
      exact ⟨g, hg, by rw [hd]⟩
    | some g2 =>
      obtain ⟨hg2mem, hg2name⟩ := dictGet_mem _ _ _ _ hd
      rcases h with habs | ⟨g2', hg2', hname', hmem'⟩
      · exact absurd hg2name (habs g2 hg2mem)
      · have hd' : dictGet Group.name gs2 g.name = some g2' := by
          rw [← hname']
          exact dictGet_of_nodup Group.name gs2 g2' h2 hg2'
        rw [hd] at hd'
        obtain rfl : g2 = g2' := by injection hd'
        refine ⟨{ base := g, g1 := some g, g2 := some g2 }, ?_, rfl⟩
        rw [groupDiff, List.mem_filterMap]
        refine ⟨g, hg, ?_⟩
        rw [hd]
        dsimp only
        rw [if_pos hmem']

/-- C5 (amended): with group names unique per side, a group appears on a
side's only-list iff no same-named group exists on the other side or
the same-named group's raw `members` STRING differs; hence a group
whose name and members string both match appears on neither list,
while equal member sets stored in a different order still count as
differing and appear on both lists (see the counterexample). -/
theorem claim_C5_group_only_lists (gs1 gs2 : List Group)
    (h1 : (gs1.map Group.name).Nodup) (h2 : (gs2.map Group.name).Nodup) :
    (∀ g1 ∈ gs1,
      (∃ e ∈ groupDiff gs1 gs2, e.base = g1)
        ↔ (∀ g2 ∈ gs2, g2.name ≠ g1.name)
          ∨ (∃ g2 ∈ gs2, g2.name = g1.name ∧ g2.members ≠ g1.members))
    ∧ (∀ g2 ∈ gs2,
      (∃ e ∈ groupDiff gs2 gs1, e.base = g2)
        ↔ (∀ g1 ∈ gs1, g1.name ≠ g2.name)
          ∨ (∃ g1 ∈ gs1, g1.name = g2.name ∧ g1.members ≠ g2.members)) :=
  ⟨fun g1 hg1 => groupDiff_base_mem_iff gs1 gs2 h2 g1 hg1,
   fun g2 hg2 => groupDiff_base_mem_iff gs2 gs1 h1 g2 hg2⟩

/-- Witness for C5 at a concrete input: "Work" exists only on side 1, so
it appears on side 1's only-list. -/
theorem claim_C5_group_only_lists_witness :
    (([{ name := "Work", members := "x" }] : List Group).map Group.name).Nodup
    ∧ (([{ name := "Friends", members := "x y" }] : List Group).map Group.name).Nodup
    ∧ ({ name := "Work", members := "x" } : Group) ∈ [({ name := "Work", members := "x" } : Group)]
    ∧ ((∃ e ∈ groupDiff [{ name := "Work", members := "x" }]
            [{ name := "Friends", members := "x y" }], e.base = { name := "Work", members := "x" })
        ↔ (∀ g2 ∈ [({ name := "Friends", members := "x y" } : Group)],
              g2.name ≠ ({ name := "Work", members := "x" } : Group).name)
          ∨ (∃ g2 ∈ [({ name := "Friends", members := "x y" } : Group)],
              g2.name = ({ name := "Work", members := "x" } : Group).name
              ∧ g2.members ≠ ({ name := "Work", members := "x" } : Group).members)) := by
  refine ⟨by decide, by decide, by decide, ?_⟩
  exact (claim_C5_group_only_lists
    [{ name := "Work", members := "x" }] [{ name := "Friends", members := "x y" }]
    (by decide) (by decide)).1 _ (by decide)

/-- A Python value occurring in the post-merge cleanup of
`on_merge_contacts` (lines 4490-4496): the three bookkeeping lists
hold contact-diff and group-diff row dictionaries, while the loop
variable `c` of `for c in [contacts, contactgroups]` ranges over the
two batch LISTS themselves.  Python `==` across these shapes: a dict
never equals a list; same-shape values compare structurally. -/
inductive MVal where
  | contactRow (c : ContactDiffEntry)
  | groupRow (g : GroupDiffEntry)
  | contactBatch (cs : List ContactDiffEntry)
  | groupBatch (gs : List GroupDiffEntry)
  deriving Repr, DecidableEq

/-- One comprehension step `l.remove(c) ... if c in l`: drop the first
occurrence of `c` when the list contains it. -/
def removeIfPresent (c : MVal) (l : List MVal) : List MVal :=
  if c ∈ l then l.erase c else l

/-- on_merge_contacts lines 4492-4496: select the three bookkeeping
lists — note lines 4493-4494 read `[self.congroup1diff,
self.congroup1diff][source]` and `[self.con1difflist,
self.con1difflist][source]`, selecting SIDE 1's group-diff list and
difflist for both values of `source` — then, for each of the two batch
lists `contacts` and `contactgroups` in turn, remove it from every
selected list containing it.  Returns (condiff, cgdiff, difflist)
after the cleanup. -/
def mergeContactsCleanup (source : Bool)
    (con1diff con2diff congroup1diff congroup2diff con1difflist con2difflist : List MVal)
    (contacts : List ContactDiffEntry) (contactgroups : List GroupDiffEntry) :
    List MVal × List MVal × List MVal :=
  let condiff := if source then con2diff else con1diff
  let cgdiff := if source then congroup1diff else congroup1diff
  let difflist := if source then con1difflist else con1difflist
  let step := fun (l : List MVal) =>
    removeIfPresent (MVal.groupBatch contactgroups)
      (removeIfPresent (MVal.contactBatch contacts) l)
  (step condiff, step cgdiff, step difflist)

/-- The contact row merged in the C6 demonstration. -/
def carolContact : Contact := { hasId := true, id := 11, identity := "carol", name := "Carol" }

/-- Carol's contact-diff entry (present only on the merged-from side). -/
def carolEntry : ContactDiffEntry := { base := carolContact, c1 := some carolContact, c2 := none }

/-- A group-diff entry sitting in side 1's group bookkeeping. -/
def friendsEntry : GroupDiffEntry :=
  { base := { name := "Friends", members := "x y" },
    g1 := some { name := "Friends", members := "x y" }, g2 := none }

/-- C6, evaluated at the failing input: after successfully merging
contact "carol" from side 1 (source = false, batch `contacts =
[carolEntry]`), the cleanup leaves `con1diff` and `con1difflist`
UNCHANGED — the loop `for c in [contacts, contactgroups]` tries to
remove the batch list objects themselves, and a list is never equal to
a row dictionary, so no entry is ever removed.  For source = side 2
(second conjunct) the cleanup moreover operates on side 1's group-diff
list and difflist (here `[MVal.groupRow friendsEntry]` and `[]`)
instead of side 2's, and still removes nothing.  The claim that
exactly the merged entries are removed from the merged side's
bookkeeping is therefore false of the code. -/
theorem claim_C6_merged_entries_not_removed :
    mergeContactsCleanup false
        [MVal.contactRow carolEntry] [] [] [] [MVal.contactRow carolEntry] []
        [carolEntry] []
      = ([MVal.contactRow carolEntry], [], [MVal.contactRow carolEntry])
    ∧ mergeContactsCleanup true
        [] [MVal.contactRow carolEntry] [MVal.groupRow friendsEntry] [] [] []
        [carolEntry] []
      = ([MVal.contactRow carolEntry], [MVal.groupRow friendsEntry], []) := by
  decide

end Skyperious
